import Mathlib

/-!
Verification of the Document-summarizer core against its specification.

The Python sources (`backend.py`, `database.py`) are shallowly embedded here:
pure string pipelines become Lean functions on `List Char` (ASCII semantics for
the character classes `\w`, `\s`, `[A-Z]`, `\d` of the regexes, and for SQLite
LIKE case folding), Python floats become `ℚ`, nullable columns become `Option`,
the SQLite table becomes a `List` of rows in insertion order, and environmental
effects (the generative-model call, database/file errors, the wall clock) become
explicit parameters.  Recursions that consume a non-structural amount of input
are driven by a fuel argument initialised to the input length, which every
recursive call strictly decreases while consuming at least one character, so
the fuel never runs out on the initial call.
-/

namespace DocSum

/-- ASCII model of Python's regex class `\s` (also `str.strip`/`str.split`). -/
def isSpaceChar (c : Char) : Bool :=
  c == ' ' || c == '\t' || c == '\n' || c == '\r' ||
  c == Char.ofNat 11 || c == Char.ofNat 12

/-- ASCII decimal digit, regex class `\d`. -/
def isDigitChar (c : Char) : Bool := '0' ≤ c && c ≤ '9'

/-- ASCII model of the regex class `\w`: letters, digits, underscore. -/
def isWordChar (c : Char) : Bool :=
  ('a' ≤ c && c ≤ 'z') || ('A' ≤ c && c ≤ 'Z') || isDigitChar c || c == '_'

/-- ASCII upper-case letter, regex class `[A-Z]`. -/
def isUpperChar (c : Char) : Bool := 'A' ≤ c && c ≤ 'Z'

/-- ASCII lower-case letter. -/
def isLowerChar (c : Char) : Bool := 'a' ≤ c && c ≤ 'z'

/-- ASCII lower-casing of one character (model of `str.lower` / LIKE folding). -/
def lowerChar (c : Char) : Char :=
  if isUpperChar c then Char.ofNat (c.toNat + 32) else c

/-- `stripWS` models Python `str.strip()`: drop whitespace from both ends. -/
def stripWS (l : List Char) : List Char :=
  ((l.dropWhile isSpaceChar).reverse.dropWhile isSpaceChar).reverse

/-- Replace any whitespace character by a plain space. -/
def toSpace (c : Char) : Char := if isSpaceChar c then ' ' else c

/-- Collapse runs of adjacent spaces to a single space.  Applied after
`toSpace`, the composition models `re.sub(r'\s+', ' ', text)`. -/
def squeezeSpaces : List Char → List Char
  | [] => []
  | [c] => [c]
  | c :: d :: rest =>
    if c == ' ' && d == ' ' then squeezeSpaces (d :: rest)
    else c :: squeezeSpaces (d :: rest)

/-- `backend.preprocess_text` step 1: `re.sub(r'\s+', ' ', text.strip())`. -/
def collapseWhitespace (l : List Char) : List Char :=
  squeezeSpaces ((stripWS l).map toSpace)

/-- Characters kept by `re.sub(r'[^\w\s\.\,\!\?\;\:\-\(\)\[\]\{\}]', '', text)`:
word characters, whitespace, and the listed punctuation (the last two entries
are the curly braces, written by code point). -/
def keepChar (c : Char) : Bool :=
  isWordChar c || isSpaceChar c ||
  c == '.' || c == ',' || c == '!' || c == '?' || c == ';' || c == ':' ||
  c == '-' || c == '(' || c == ')' || c == '[' || c == ']' ||
  c == Char.ofNat 123 || c == Char.ofNat 125

/-- `preprocess_text` step 2: delete every character outside `keepChar`. -/
def noiseFilter (l : List Char) : List Char := l.filter keepChar

/-- `re.sub(r'(\w)\|(\w)', r'\1l\2', text)`: a vertical bar between two word
characters becomes the letter `l`; the scan resumes after each match, and
advances one character past a failed position, exactly as `re.sub` does. -/
def pipeFix : List Char → List Char
  | a :: b :: c :: rest =>
    if b == '|' && isWordChar a && isWordChar c then
      a :: 'l' :: c :: pipeFix rest
    else a :: pipeFix (b :: c :: rest)
  | l => l

/-- `re.sub(r'(\w)0(\w)', r'\1o\2', text)`: a digit `0` between two word
characters becomes the letter `o`, with the same scanning discipline. -/
def zeroFix : List Char → List Char
  | a :: b :: c :: rest =>
    if b == '0' && isWordChar a && isWordChar c then
      a :: 'o' :: c :: zeroFix rest
    else a :: zeroFix (b :: c :: rest)
  | l => l

/-- Does the list start with a match of `Page \d`? -/
def isPageToken : List Char → Bool
  | c1 :: c2 :: c3 :: c4 :: c5 :: d :: _ =>
    c1 == 'P' && c2 == 'a' && c3 == 'g' && c4 == 'e' && c5 == ' ' && isDigitChar d
  | _ => false

/-- Fuelled scan for `re.sub(r'Page \d+', '', text)`: on a match, drop the five
characters `Page ` and the maximal digit run, and resume after the match. -/
def pageFixF : Nat → List Char → List Char
  | 0, l => l
  | _ + 1, [] => []
  | fuel + 1, c :: rest =>
    if isPageToken (c :: rest) then
      pageFixF fuel (((c :: rest).drop 5).dropWhile isDigitChar)
    else c :: pageFixF fuel rest

/-- `preprocess_text` step: remove `Page <number>` tokens. -/
def pageFix (l : List Char) : List Char := pageFixF l.length l

/-- Fuelled scan for `re.sub(r'^\d+\s*', '', text, flags=re.MULTILINE)`.
The boolean argument records whether the current position is a line start
(position 0 or just after a newline); a match consumes the maximal digit run
and then the maximal whitespace run, and the position after the match is a
line start exactly when the last consumed whitespace character is a newline. -/
def nhAuxF : Nat → Bool → List Char → List Char
  | 0, _, l => l
  | _ + 1, _, [] => []
  | fuel + 1, ls, c :: rest =>
    if ls && isDigitChar c then
      let r1 := (c :: rest).dropWhile isDigitChar
      let ws := r1.takeWhile isSpaceChar
      nhAuxF fuel (ws.getLast? == some '\n') (r1.dropWhile isSpaceChar)
    else c :: nhAuxF fuel (c == '\n') rest

/-- `preprocess_text` step: strip bare line-leading numbers. -/
def numHeaderFix (l : List Char) : List Char := nhAuxF l.length true l

/-- One of the bullet markers `•`, `-`, `*`. -/
def isBulletChar (c : Char) : Bool := c == '•' || c == '-' || c == '*'

/-- Attempt to match `\s*[•\-\*]\s*` at the current (line-start) position.
On success, return whether the position after the match is a line start
together with the rest of the input. -/
def tryBullet (l : List Char) : Option (Bool × List Char) :=
  match l.dropWhile isSpaceChar with
  | b :: r2 =>
    if isBulletChar b then
      let ws2 := r2.takeWhile isSpaceChar
      some (ws2.getLast? == some '\n', r2.dropWhile isSpaceChar)
    else none
  | [] => none

/-- Fuelled scan for `re.sub(r'^\s*[•\-\*]\s*', '', text, flags=re.MULTILINE)`. -/
def bulletAuxF : Nat → Bool → List Char → List Char
  | 0, _, l => l
  | _ + 1, _, [] => []
  | fuel + 1, ls, c :: rest =>
    if ls then
      match tryBullet (c :: rest) with
      | some (ls', rest') => bulletAuxF fuel ls' rest'
      | none => c :: bulletAuxF fuel (c == '\n') rest
    else c :: bulletAuxF fuel (c == '\n') rest

/-- `preprocess_text` step: strip leading bullet markers from each line. -/
def bulletFix (l : List Char) : List Char := bulletAuxF l.length true l

/-- Fuelled scan for `re.sub(r'\n\s*\n\s*\n+', '\n\n', text)`.  A match starts
at a newline whose following maximal whitespace run contains at least two more
newlines; backtracking makes the Python match consume that run exactly up to
and including its last newline, replaced by two newlines. -/
def blankAuxF : Nat → List Char → List Char
  | 0, l => l
  | _ + 1, [] => []
  | fuel + 1, c :: rest =>
    if c == '\n' then
      let r := rest.takeWhile isSpaceChar
      if 2 ≤ (r.filter (fun d => d == '\n')).length then
        let k := r.length - (r.reverse.takeWhile (fun d => d != '\n')).length
        '\n' :: '\n' :: blankAuxF fuel (rest.drop k)
      else c :: blankAuxF fuel rest
    else c :: blankAuxF fuel rest

/-- `preprocess_text` step: collapse three-plus blank lines. -/
def blankLineFix (l : List Char) : List Char := blankAuxF l.length l

/-- Sentence-ending punctuation, regex class `[.!?]`. -/
def isSentEnd (c : Char) : Bool := c == '.' || c == '!' || c == '?'

/-- Fuelled scan for `re.sub(r'([.!?])\s*([A-Z])', r'\1 \2', text)`: exactly
one space between sentence-ending punctuation and a following capital. -/
def sentAuxF : Nat → List Char → List Char
  | 0, l => l
  | _ + 1, [] => []
  | fuel + 1, p :: rest =>
    if isSentEnd p then
      match rest.dropWhile isSpaceChar with
      | u :: rest' =>
        if isUpperChar u then p :: ' ' :: u :: sentAuxF fuel rest'
        else p :: sentAuxF fuel rest
      | [] => p :: sentAuxF fuel rest
    else p :: sentAuxF fuel rest

/-- `preprocess_text` step: normalise sentence spacing. -/
def sentenceFix (l : List Char) : List Char := sentAuxF l.length l

/-- The full rewrite pipeline of `backend.preprocess_text` after its blank
guard, ending in the final `strip()`. -/
def normalizeL (l : List Char) : List Char :=
  stripWS (sentenceFix (blankLineFix (bulletFix (numHeaderFix (pageFix
    (zeroFix (pipeFix (noiseFilter (collapseWhitespace l)))))))))

/-- `backend.preprocess_text`: returns `""` for empty or whitespace-only input
(`if not text or not text.strip()`), else runs the rewrite pipeline. -/
def preprocess_text (s : String) : String :=
  if s.data.all isSpaceChar then "" else String.mk (normalizeL s.data)

/-! ### String helpers shared by the evaluator and the store -/

/-- Count the words of Python `str.split()`: maximal non-whitespace runs.
The boolean tracks whether the previous character was inside a word. -/
def countWordsAux : Bool → List Char → Nat
  | _, [] => 0
  | inWord, c :: rest =>
    if isSpaceChar c then countWordsAux false rest
    else (if inWord then 0 else 1) + countWordsAux true rest

/-- `len(s.split())`. -/
def wordCount (s : String) : Nat := countWordsAux false s.data

/-- Is `p` a leading segment of `s` (plain character equality)? -/
def leadsList : List Char → List Char → Bool
  | [], _ => true
  | _ :: _, [] => false
  | c :: p, d :: s => c == d && leadsList p s

/-- Does `p` occur contiguously inside `s` (Python's `p in s`)? -/
def infixList : List Char → List Char → Bool
  | p, [] => leadsList p []
  | p, d :: s' => leadsList p (d :: s') || infixList p s'

/-- Python `needle in haystack` on strings. -/
def strContains (needle haystack : String) : Bool :=
  infixList needle.data haystack.data

/-- Python `s.startswith(p)`. -/
def strStartsWith (p s : String) : Bool := leadsList p.data s.data

/-- Python `s.lower()` (ASCII). -/
def strLower (s : String) : String := String.mk (s.data.map lowerChar)

/-- Python `s.strip()`. -/
def strStrip (s : String) : String := String.mk (stripWS s.data)

/-- Round a rational to the nearest integer, ties to even (Python `round`). -/
def roundHalfEven (q : ℚ) : ℤ :=
  let f := ⌊q⌋
  if q - f < 1 / 2 then f
  else if q - f > 1 / 2 then f + 1
  else if f % 2 = 0 then f else f + 1

/-- Python `round(x, 2)` on our rational model of floats. -/
def round2 (q : ℚ) : ℚ := (roundHalfEven (q * 100) : ℚ) / 100

/-- Python `round(x, 1)`. -/
def round1 (q : ℚ) : ℚ := (roundHalfEven (q * 10) : ℚ) / 10

/-! ### `backend.evaluate_summary_quality` and its helpers -/

/-- `compression_ratio = summary_length / original_length if original_length > 0
else 0`, on word counts.  Floats are modelled as exact rationals. -/
def compressionRatio (original summary : String) : ℚ :=
  if 0 < wordCount original then mkRat (wordCount summary) (wordCount original)
  else 0

/-- Whether the compression ratio lands in the rewarded band `[0.05, 0.4]`. -/
def compressionOk (original summary : String) : Prop :=
  mkRat 1 20 ≤ compressionRatio original summary ∧
    compressionRatio original summary ≤ mkRat 2 5

instance (o s : String) : Decidable (compressionOk o s) := by
  unfold compressionOk; infer_instance

/-- Points from the compression-ratio check (`+25` inside the band). -/
def compressionPts (original summary : String) : Nat :=
  if compressionOk original summary then 25 else 0

/-- Feedback line from the compression-ratio branch of the source. -/
def compressionNote (original summary : String) : String :=
  if compressionOk original summary then "✅ Good compression ratio"
  else if compressionRatio original summary < mkRat 1 20 then
    "⚠️ Summary might be too brief"
  else "⚠️ Summary might be too verbose"

/-- The fixed `key_indicators` vocabulary of the source. -/
def keyIndicators : List String :=
  ["conclusion", "summary", "therefore", "thus", "overall", "key", "important", "main"]

/-- `any(indicator in summary.lower() for indicator in key_indicators)`. -/
def hasKeyIndicator (summary : String) : Bool :=
  keyIndicators.any (fun k => strContains k (strLower summary))

/-- Points from the key-indicator check. -/
def indicatorPts (summary : String) : Nat := if hasKeyIndicator summary then 20 else 0

/-- `'•' in summary or '-' in summary or '\n' in summary`. -/
def hasStructure (summary : String) : Bool :=
  strContains "•" summary || strContains "-" summary || strContains "\n" summary

/-- Points from the structural-formatting check. -/
def structurePts (summary : String) : Nat := if hasStructure summary then 15 else 0

/-- Points from the length-adequacy check (`summary_length >= 50`). -/
def lengthPts (summary : String) : Nat := if 50 ≤ wordCount summary then 20 else 0

/-- `len(summary.split('.'))`: one more than the number of periods. -/
def sentenceSegments (summary : String) : Nat :=
  (summary.data.filter (fun c => c == '.')).length + 1

/-- Points from the sentence-completeness check. -/
def sentencePts (summary : String) : Nat :=
  if 2 ≤ sentenceSegments summary then 20 else 0

/-- `backend.get_improvement_suggestions`. -/
def get_improvement_suggestions (quality_score : Nat) (compression_ratio : ℚ) :
    List String :=
  (if quality_score < 60 then
    ["Consider regenerating with a different style",
     "Check if the document text is properly extracted"] else []) ++
  (if compression_ratio < mkRat 1 20 then
    ["Try 'Detailed' style for more comprehensive summary"] else []) ++
  (if mkRat 2 5 < compression_ratio then
    ["Try 'Abstract' style for more concise summary"] else []) ++
  (if quality_score < 40 then
    ["Verify document format is supported",
     "Ensure document contains readable text content"] else [])

/-- The dictionary returned by `evaluate_summary_quality`; keys absent from the
error branch of the source are `none` there. -/
structure QualityReport where
  quality_score : Nat
  overall_rating : String
  compression_ratio_pct : Option ℚ
  original_length : Option Nat
  summary_length : Option Nat
  feedback : List String
  suggestions : List String
  error : Option String
  deriving Repr, DecidableEq

/-- The rating thresholds as the spec states them (&ge;80 Excellent, &ge;60
Good, &ge;40 Fair, else Needs Improvement), kept separate for comparison with
the if-chain inside `evaluate_summary_quality`. -/
def ratingOf (score : Nat) : String :=
  if 80 ≤ score then "Excellent"
  else if 60 ≤ score then "Good"
  else if 40 ≤ score then "Fair"
  else "Needs Improvement"

/-- `backend.evaluate_summary_quality`.  The whole body sits in a
`try/except`; `fail` simulates an exception raised inside the body (`none`
means the body ran to completion, which it always does on string inputs). -/
def evaluate_summary_quality (fail : Option String) (original summary : String) :
    QualityReport :=
  match fail with
  | some e =>
    { quality_score := 0
      overall_rating := "Error"
      compression_ratio_pct := none
      original_length := none
      summary_length := none
      feedback := []
      suggestions := []
      error := some ("Error evaluating summary: " ++ e) }
  | none =>
    let r := compressionRatio original summary
    let score := compressionPts original summary + indicatorPts summary +
      structurePts summary + lengthPts summary + sentencePts summary
    { quality_score := score
      overall_rating :=
        if 80 ≤ score then "Excellent"
        else if 60 ≤ score then "Good"
        else if 40 ≤ score then "Fair"
        else "Needs Improvement"
      compression_ratio_pct := some (round1 (r * 100))
      original_length := some (wordCount original)
      summary_length := some (wordCount summary)
      feedback :=
        [compressionNote original summary] ++
        (if hasKeyIndicator summary then ["✅ Contains key content indicators"] else []) ++
        (if hasStructure summary then ["✅ Well-structured format"] else []) ++
        (if 50 ≤ wordCount summary then ["✅ Appropriate summary length"]
         else if wordCount summary < 20 then ["⚠️ Summary might be too short"] else []) ++
        (if 2 ≤ sentenceSegments summary then ["✅ Contains complete thoughts"] else [])
      suggestions := get_improvement_suggestions score r
      error := none }

/-! ### `backend.summarize_text` and `backend.summarize_text_with_db` -/

/-- Outcome of the external `model.generate_content` call: either a response
whose `.text` is `t` (Python falsy `response.text` is modelled by `t = ""`),
or an exception with message `e`. -/
inductive GenOutcome where
  | ok (t : String)
  | exc (e : String)
  deriving Repr, DecidableEq

/-- `backend.summarize_text`, with the external call abstracted by `g`.
Returns the string the Python function returns, paired with whether the
external generative capability was invoked at all. -/
def summarize_text (text : String) (g : GenOutcome) : String × Bool :=
  if text.data.all isSpaceChar then
    ("Error: No text provided for summarization", false)
  else
    let cleaned := preprocess_text text
    if cleaned = "" then
      ("Error: Text preprocessing resulted in empty content", false)
    else
      match g with
      | GenOutcome.ok t =>
        if t = "" then ("Error: No summary generated. Please try again.", true)
        else (strStrip t, true)
      | GenOutcome.exc e => ("Error generating summary: " ++ e, true)

/-- The dictionary returned by `summarize_text_with_db`; keys absent on a
given branch of the source are `none`. -/
structure Outcome where
  success : Bool
  error : Option String
  summary : Option String
  summary_id : Option Nat
  file_path : Option String
  quality_metrics : Option QualityReport
  processing_time : Option ℚ
  word_count : Option Nat
  summary_word_count : Option Nat
  message : Option String
  warning : Option String
  deriving Repr, DecidableEq

/-- An `Outcome` whose optional fields are all absent. -/
def Outcome.blank : Outcome :=
  { success := false, error := none, summary := none, summary_id := none,
    file_path := none, quality_metrics := none, processing_time := none,
    word_count := none, summary_word_count := none, message := none,
    warning := none }

/-- `backend.summarize_text_with_db`.  Environmental effects are parameters:
`g` the generative call, `dbResult` what `db.save_summary` did (`Except.error`
models a raised exception), `fileResult` what `save_summary_to_file` returned,
and `elapsed` the value of `time.time() - start_time` taken at line 286. -/
def summarize_text_with_db (text : String) (g : GenOutcome)
    (dbResult : Except String Nat) (fileResult : String) (elapsed : ℚ) : Outcome :=
  if text.data.all isSpaceChar then
    { Outcome.blank with
      success := false, error := some "No text provided for summarization" }
  else
    let summary := (summarize_text text g).1
    if strStartsWith "Error" summary then
      { Outcome.blank with success := false, error := some summary }
    else
      let wc := wordCount text
      let swc := wordCount summary
      let qm := evaluate_summary_quality none text summary
      let fp := if strStartsWith "Error" fileResult then none else some fileResult
      match dbResult with
      | Except.ok sid =>
        { Outcome.blank with
          success := true, summary := some summary, summary_id := some sid,
          file_path := fp, quality_metrics := some qm,
          processing_time := some (round2 elapsed),
          word_count := some wc, summary_word_count := some swc,
          message := some "Summary generated and saved successfully" }
      | Except.error e =>
        { Outcome.blank with
          success := true, summary := some summary, summary_id := none,
          file_path := fp, quality_metrics := some qm,
          processing_time := some (round2 elapsed),
          word_count := some wc, summary_word_count := some swc,
          warning := some ("Summary generated but database save failed: " ++ e) }

/-! ### `database.SummaryDatabase`

The `summaries` table is modelled as a list of rows in insertion order;
nullable columns are `Option`s and `REAL` columns are rationals. -/

/-- One row of the `summaries` table. -/
structure SummaryRow where
  id : Nat
  user_id : String
  document_name : String
  document_type : String
  original_text : String
  summary : String
  summary_style : String
  quality_score : Option ℚ
  created_at : Nat
  file_size : Option Nat
  processing_time : Option ℚ
  word_count : Option Nat
  summary_word_count : Option Nat
  deriving Repr, DecidableEq

/-- Insert one row into a list that is already sorted by `created_at`
descending. -/
def insertDesc (r : SummaryRow) : List SummaryRow → List SummaryRow
  | [] => [r]
  | x :: xs =>
    if x.created_at ≤ r.created_at then r :: x :: xs
    else x :: insertDesc r xs

/-- `ORDER BY created_at DESC` (SQLite fixes no order among equal keys;
this model picks one deterministically). -/
def sortDesc : List SummaryRow → List SummaryRow
  | [] => []
  | x :: xs => insertDesc x (sortDesc xs)

/-- `SummaryDatabase.get_summary_by_id`: `SELECT * WHERE id = ?`, first row. -/
def get_summary_by_id (st : List SummaryRow) (sid : Nat) : Option SummaryRow :=
  st.find? (fun r => r.id == sid)

/-- `SummaryDatabase.get_user_summaries`: the user's rows, newest first,
with `LIMIT ? OFFSET ?`. -/
def get_user_summaries (st : List SummaryRow) (uid : String)
    (limit offset : Nat) : List SummaryRow :=
  (((sortDesc (st.filter (fun r => r.user_id == uid))).drop offset).take limit)

/-- `SummaryDatabase.delete_summary`: `DELETE WHERE id = ? AND user_id = ?`,
returning the new table and `rowcount > 0`. -/
def delete_summary (st : List SummaryRow) (sid : Nat) (uid : String) :
    List SummaryRow × Bool :=
  (st.filter (fun r => !(r.id == sid && r.user_id == uid)),
   decide (0 < (st.filter (fun r => r.id == sid && r.user_id == uid)).length))

/-- SQLite `LIKE` matching (fuelled; `%` matches any sequence, `_` any single
character, other characters compare case-insensitively in ASCII).  The fuel
`pattern.length + s.length + 1` strictly exceeds what any branch consumes. -/
def likeMatchF : Nat → List Char → List Char → Bool
  | 0, _, _ => false
  | _ + 1, [], s => s.isEmpty
  | f + 1, c :: p, s =>
    if c = '%' then
      match s with
      | [] => likeMatchF f p []
      | _ :: s' => likeMatchF f p s || likeMatchF f (c :: p) s'
    else if c = '_' then
      match s with
      | [] => false
      | _ :: s' => likeMatchF f p s'
    else
      match s with
      | [] => false
      | d :: s' => lowerChar c == lowerChar d && likeMatchF f p s'

/-- `field LIKE pattern` on whole strings. -/
def likeMatch (pattern s : List Char) : Bool :=
  likeMatchF (pattern.length + s.length + 1) pattern s

/-- `field LIKE '%' || query || '%'`, as built by `search_summaries`. -/
def likeContains (query field : String) : Bool :=
  likeMatch ('%' :: (query.data ++ ['%'])) field.data

/-- The `WHERE` disjunction of `search_summaries` for one row. -/
def searchRowMatch (query : String) (r : SummaryRow) : Bool :=
  likeContains query r.document_name || likeContains query r.summary ||
    likeContains query r.original_text

/-- `SummaryDatabase.search_summaries`. -/
def search_summaries (st : List SummaryRow) (uid query : String) (limit : Nat) :
    List SummaryRow :=
  (sortDesc (st.filter (fun r => r.user_id == uid && searchRowMatch query r))).take limit

/-- Case-insensitive substring test on strings (the behaviour §4.5 of the spec
ascribes to `search`). -/
def ciContains (query field : String) : Bool :=
  infixList (query.data.map lowerChar) (field.data.map lowerChar)

/-- Search as the spec words it: the user's rows whose document name, summary
text or stored excerpt contains the query as a case-insensitive substring,
newest first, up to `limit`.  Kept for comparison with `search_summaries`. -/
def searchSpec (st : List SummaryRow) (uid query : String) (limit : Nat) :
    List SummaryRow :=
  (sortDesc (st.filter (fun r => r.user_id == uid &&
    (ciContains query r.document_name || ciContains query r.summary ||
      ciContains query r.original_text)))).take limit

/-- The dictionary returned by `get_summary_statistics`. -/
structure Stats where
  total_summaries : Nat
  total_documents : Nat
  average_quality : ℚ
  favorite_style : String
  total_words_processed : Nat
  deriving Repr, DecidableEq

/-- The rows belonging to one user, in table order. -/
def userRows (st : List SummaryRow) (uid : String) : List SummaryRow :=
  st.filter (fun r => r.user_id == uid)

/-- The user's non-null quality scores (`WHERE quality_score IS NOT NULL`). -/
def userScores (st : List SummaryRow) (uid : String) : List ℚ :=
  (userRows st uid).filterMap SummaryRow.quality_score

/-- `GROUP BY summary_style ORDER BY count DESC LIMIT 1`, with `"None"` when
the user has no rows.  SQLite fixes no order among styles of equal count;
this model keeps the earliest style reaching the maximal count. -/
def favoriteStyle (rows : List SummaryRow) : String :=
  match (rows.map SummaryRow.summary_style).dedup with
  | [] => "None"
  | s :: ss =>
    (ss.foldl (fun best t =>
      if (rows.filter (fun r => r.summary_style == best)).length <
         (rows.filter (fun r => r.summary_style == t)).length then t else best) s)

/-- `SummaryDatabase.get_summary_statistics`.  `AVG` over zero rows is `NULL`,
turned into `0` by the source's `or 0`; `SUM(word_count)` ignores nulls and
its `NULL`-on-no-rows is likewise defaulted to `0`. -/
def get_summary_statistics (st : List SummaryRow) (uid : String) : Stats :=
  let rows := userRows st uid
  let scores := userScores st uid
  { total_summaries := rows.length
    total_documents := (rows.map SummaryRow.document_name).dedup.length
    average_quality :=
      round2 (if scores = [] then 0 else scores.sum / (scores.length : ℚ))
    favorite_style := favoriteStyle rows
    total_words_processed := (rows.filterMap SummaryRow.word_count).sum }

/-! ### A normal-form fragment for the normalizer

The idempotence claim fails on the code (see `C2`); it does hold on inputs
whose normalized form uses only lower-case letters and single separating
spaces, because every rewrite step fixes such strings. -/

/-- The characters of the fragment: lower-case ASCII letters and the space. -/
def cleanChars : List Char := "abcdefghijklmnopqrstuvwxyz ".data

/-- Membership in the fragment's character set. -/
def cleanChar (c : Char) : Bool := cleanChars.contains c

/-- No two adjacent spaces. -/
def noDoubleSpace : List Char → Bool
  | c :: d :: rest => !(c == ' ' && d == ' ') && noDoubleSpace (d :: rest)
  | _ => true

/-- Strings of lower-case words separated by single spaces, with no leading
or trailing space. -/
def cleanText (l : List Char) : Bool :=
  l.all cleanChar && noDoubleSpace l && l.head? != some ' ' && l.getLast? != some ' '

/-! ### Concrete rows used as witness data -/

/-- A stored summary owned by user `"u"`. -/
def rowA : SummaryRow :=
  { id := 1, user_id := "u", document_name := "abc", document_type := "text",
    original_text := "orig", summary := "sum", summary_style := "bullet",
    quality_score := none, created_at := 1, file_size := none,
    processing_time := none, word_count := none, summary_word_count := none }

/-- A stored summary owned by user `"v"`. -/
def rowB : SummaryRow :=
  { id := 2, user_id := "v", document_name := "report", document_type := "pdf",
    original_text := "the original text", summary := "the summary",
    summary_style := "abstract", quality_score := some 80, created_at := 2,
    file_size := some 1024, processing_time := some 1, word_count := some 120,
    summary_word_count := some 12 }

/-! ## Claims -/

/-! ### Store lemmas -/

/-- Inserting into the descending sort permutes a cons. -/
theorem insertDesc_perm (r : SummaryRow) (l : List SummaryRow) :
    List.Perm (insertDesc r l) (r :: l) := by
  induction l with
  | nil => exact List.Perm.refl _
  | cons x xs ih =>
    unfold insertDesc
    split
    · exact List.Perm.refl _
    · exact (ih.cons x).trans (List.Perm.swap r x xs)

/-- The descending sort is a permutation of its input. -/
theorem sortDesc_perm (l : List SummaryRow) : List.Perm (sortDesc l) l := by
  induction l with
  | nil => exact List.Perm.refl _
  | cons x xs ih => exact (insertDesc_perm x (sortDesc xs)).trans (ih.cons x)

/-- With distinct ids, `find?` on an id locates the member with that id. -/
theorem find_id_unique {st : List SummaryRow} {r : SummaryRow} {sid : Nat}
    (hnd : (st.map SummaryRow.id).Nodup) (hmem : r ∈ st) (hid : r.id = sid) :
    st.find? (fun x => x.id == sid) = some r := by
  induction st with
  | nil => cases hmem
  | cons a tl ih =>
    rw [List.map_cons, List.nodup_cons] at hnd
    rcases List.mem_cons.mp hmem with rfl | hmem'
    · exact List.find?_cons_of_pos _ (by simp [hid])
    · have hne : (a.id == sid) = false := by
        refine beq_eq_false_iff_ne.mpr ?_
        intro hEq
        exact hnd.1 (by rw [hEq, ← hid]; exact List.mem_map_of_mem SummaryRow.id hmem')
      rw [List.find?_cons]
      simp only [hne]
      exact ih hnd.2 hmem'

/-! ### Normal-form lemmas for the normalizer -/

/-- Characters of the clean fragment are fixed by every per-character test
the rewrite pipeline performs (checked over the 27 concrete characters). -/
theorem clean_char_facts {c : Char} (h : cleanChar c = true) :
    toSpace c = c ∧ keepChar c = true ∧ (c == '|') = false ∧ (c == '0') = false ∧
    (c == 'P') = false ∧ isDigitChar c = false ∧ isBulletChar c = false ∧
    (c == '\n') = false ∧ isSentEnd c = false ∧ isSpaceChar c = (c == ' ') := by
  have hall : ∀ x ∈ cleanChars,
      toSpace x = x ∧ keepChar x = true ∧ (x == '|') = false ∧ (x == '0') = false ∧
      (x == 'P') = false ∧ isDigitChar x = false ∧ isBulletChar x = false ∧
      (x == '\n') = false ∧ isSentEnd x = false ∧ isSpaceChar x = (x == ' ') := by
    decide
  exact hall c (List.elem_iff.mp h)

/-- Clean strings whose head is not a space lose nothing to `dropWhile`. -/
theorem dropWhile_space_eq_self {l : List Char}
    (hc : ∀ c ∈ l, cleanChar c = true) (hh : l.head? ≠ some ' ') :
    l.dropWhile isSpaceChar = l := by
  cases l with
  | nil => rfl
  | cons a tl =>
    have hsp := (clean_char_facts (hc a (List.mem_cons_self a tl))).2.2.2.2.2.2.2.2.2
    have hne : (a == ' ') = false := by
      refine beq_eq_false_iff_ne.mpr ?_
      intro hEq
      exact hh (by simp [hEq])
    rw [List.dropWhile_cons, hsp, hne]
    simp

/-- Clean, already-stripped strings are fixed by `stripWS`. -/
theorem stripWS_eq_self {l : List Char}
    (hc : ∀ c ∈ l, cleanChar c = true)
    (hh : l.head? ≠ some ' ') (hl : l.getLast? ≠ some ' ') :
    stripWS l = l := by
  unfold stripWS
  rw [dropWhile_space_eq_self hc hh,
    dropWhile_space_eq_self (fun c hcm => hc c (List.mem_reverse.mp hcm))
      (by rw [List.head?_reverse]; exact hl)]
  exact List.reverse_reverse l

/-- Clean strings are fixed by the whitespace-to-space map. -/
theorem map_toSpace_eq_self {l : List Char} (hc : ∀ c ∈ l, cleanChar c = true) :
    l.map toSpace = l := by
  induction l with
  | nil => rfl
  | cons a tl ih =>
    rw [List.map_cons, (clean_char_facts (hc a (List.mem_cons_self a tl))).1,
      ih (fun c hcm => hc c (List.mem_cons_of_mem a hcm))]

/-- Strings without adjacent spaces are fixed by `squeezeSpaces`. -/
theorem squeezeSpaces_eq_self {l : List Char} (h : noDoubleSpace l = true) :
    squeezeSpaces l = l := by
  induction l with
  | nil => rfl
  | cons a tl ih =>
    cases tl with
    | nil => rfl
    | cons b tl2 =>
      unfold noDoubleSpace at h
      rw [Bool.and_eq_true] at h
      have hcond : (a == ' ' && b == ' ') = false := by
        have := h.1
        simp only [Bool.not_eq_eq_eq_not, Bool.not_true] at this
        exact this
      simp only [squeezeSpaces, hcond, Bool.false_eq_true, if_false]
      exact congrArg (List.cons a) (ih h.2)

/-- Clean strings are fixed by the noise filter. -/
theorem noiseFilter_eq_self {l : List Char} (hc : ∀ c ∈ l, cleanChar c = true) :
    noiseFilter l = l :=
  List.filter_eq_self.mpr (fun a ha => (clean_char_facts (hc a ha)).2.1)

/-- Strings without a vertical bar are fixed by the OCR bar repair. -/
theorem pipeFix_eq_self {l : List Char} (hc : ∀ c ∈ l, cleanChar c = true) :
    pipeFix l = l := by
  induction l with
  | nil => rfl
  | cons a tl ih =>
    have ih' := ih (fun x hx => hc x (List.mem_cons_of_mem a hx))
    cases tl with
    | nil => rfl
    | cons b tl2 =>
      cases tl2 with
      | nil => rfl
      | cons c tl3 =>
        have hb : (b == '|') = false :=
          (clean_char_facts (hc b (by simp))).2.2.1
        simp only [pipeFix, hb, Bool.false_and, Bool.false_eq_true, if_false]
        exact congrArg (List.cons a) ih'

/-- Strings without a zero digit are fixed by the OCR zero repair. -/
theorem zeroFix_eq_self {l : List Char} (hc : ∀ c ∈ l, cleanChar c = true) :
    zeroFix l = l := by
  induction l with
  | nil => rfl
  | cons a tl ih =>
    have ih' := ih (fun x hx => hc x (List.mem_cons_of_mem a hx))
    cases tl with
    | nil => rfl
    | cons b tl2 =>
      cases tl2 with
      | nil => rfl
      | cons c tl3 =>
        have hb : (b == '0') = false :=
          (clean_char_facts (hc b (by simp))).2.2.2.1
        simp only [zeroFix, hb, Bool.false_and, Bool.false_eq_true, if_false]
        exact congrArg (List.cons a) ih'

/-- A list not starting with `P` starts no `Page \d` token. -/
theorem isPageToken_eq_false {a : Char} {tl : List Char} (h : (a == 'P') = false) :
    isPageToken (a :: tl) = false := by
  cases tl with
  | nil => rfl
  | cons c2 t2 =>
    cases t2 with
    | nil => rfl
    | cons c3 t3 =>
      cases t3 with
      | nil => rfl
      | cons c4 t4 =>
        cases t4 with
        | nil => rfl
        | cons c5 t5 =>
          cases t5 with
          | nil => rfl
          | cons d t6 => simp only [isPageToken, h, Bool.false_and]

/-- Clean strings (no capital `P`) are fixed by the page-token removal. -/
theorem pageFixF_eq_self : ∀ (fuel : Nat) (l : List Char),
    (∀ c ∈ l, cleanChar c = true) → pageFixF fuel l = l := by
  intro fuel
  induction fuel with
  | zero => intro l _; rfl
  | succ fuel ih =>
    intro l hc
    cases l with
    | nil => rfl
    | cons a tl =>
      have ha : (a == 'P') = false :=
        (clean_char_facts (hc a (List.mem_cons_self a tl))).2.2.2.2.1
      simp only [pageFixF, isPageToken_eq_false ha, Bool.false_eq_true, if_false]
      exact congrArg (List.cons a)
        (ih tl (fun c h => hc c (List.mem_cons_of_mem a h)))

/-- Clean strings (no digits) are fixed by the line-number removal. -/
theorem nhAuxF_eq_self : ∀ (fuel : Nat) (ls : Bool) (l : List Char),
    (∀ c ∈ l, cleanChar c = true) → nhAuxF fuel ls l = l := by
  intro fuel
  induction fuel with
  | zero => intro ls l _; rfl
  | succ fuel ih =>
    intro ls l hc
    cases l with
    | nil => rfl
    | cons a tl =>
      have ha : isDigitChar a = false :=
        (clean_char_facts (hc a (List.mem_cons_self a tl))).2.2.2.2.2.1
      have hcond : (ls && isDigitChar a) = false := by rw [ha]; exact Bool.and_false ls
      simp only [nhAuxF, hcond, Bool.false_eq_true, if_false]
      exact congrArg (List.cons a)
        (ih (a == '\n') tl (fun c h => hc c (List.mem_cons_of_mem a h)))

/-- Clean strings contain no bullet marker, so the bullet match fails. -/
theorem tryBullet_eq_none {l : List Char} (hc : ∀ c ∈ l, cleanChar c = true) :
    tryBullet l = none := by
  unfold tryBullet
  cases hdw : l.dropWhile isSpaceChar with
  | nil => rfl
  | cons b r2 =>
    have hb : b ∈ l := (List.dropWhile_sublist isSpaceChar).subset
      (by rw [hdw]; exact List.mem_cons_self b r2)
    have hbf : isBulletChar b = false := (clean_char_facts (hc b hb)).2.2.2.2.2.2.1
    simp only [hbf, Bool.false_eq_true, if_false]

/-- Clean strings are fixed by the bullet-marker removal. -/
theorem bulletAuxF_eq_self : ∀ (fuel : Nat) (ls : Bool) (l : List Char),
    (∀ c ∈ l, cleanChar c = true) → bulletAuxF fuel ls l = l := by
  intro fuel
  induction fuel with
  | zero => intro ls l _; rfl
  | succ fuel ih =>
    intro ls l hc
    cases l with
    | nil => rfl
    | cons a tl =>
      have hrec := ih (a == '\n') tl (fun c h => hc c (List.mem_cons_of_mem a h))
      cases ls with
      | false =>
        simp only [bulletAuxF, Bool.false_eq_true, if_false]
        exact congrArg (List.cons a) hrec
      | true =>
        simp only [bulletAuxF, if_true, tryBullet_eq_none hc]
        exact congrArg (List.cons a) hrec

/-- Clean strings (no newline) are fixed by the blank-line collapse. -/
theorem blankAuxF_eq_self : ∀ (fuel : Nat) (l : List Char),
    (∀ c ∈ l, cleanChar c = true) → blankAuxF fuel l = l := by
  intro fuel
  induction fuel with
  | zero => intro l _; rfl
  | succ fuel ih =>
    intro l hc
    cases l with
    | nil => rfl
    | cons a tl =>
      have ha : (a == '\n') = false :=
        (clean_char_facts (hc a (List.mem_cons_self a tl))).2.2.2.2.2.2.2.1
      simp only [blankAuxF, ha, Bool.false_eq_true, if_false]
      exact congrArg (List.cons a)
        (ih tl (fun c h => hc c (List.mem_cons_of_mem a h)))

/-- Clean strings (no sentence punctuation) are fixed by sentence spacing. -/
theorem sentAuxF_eq_self : ∀ (fuel : Nat) (l : List Char),
    (∀ c ∈ l, cleanChar c = true) → sentAuxF fuel l = l := by
  intro fuel
  induction fuel with
  | zero => intro l _; rfl
  | succ fuel ih =>
    intro l hc
    cases l with
    | nil => rfl
    | cons a tl =>
      have ha : isSentEnd a = false :=
        (clean_char_facts (hc a (List.mem_cons_self a tl))).2.2.2.2.2.2.2.2.1
      simp only [sentAuxF, ha, Bool.false_eq_true, if_false]
      exact congrArg (List.cons a)
        (ih tl (fun c h => hc c (List.mem_cons_of_mem a h)))

/-- Every rewrite step of the pipeline fixes clean normal-form strings. -/
theorem normalizeL_eq_self {l : List Char} (h : cleanText l = true) :
    normalizeL l = l := by
  unfold cleanText at h
  simp only [Bool.and_eq_true, bne_iff_ne, ne_eq, List.all_eq_true] at h
  obtain ⟨⟨⟨hall, hnd⟩, hh⟩, hl⟩ := h
  unfold normalizeL collapseWhitespace
  rw [stripWS_eq_self hall hh hl, map_toSpace_eq_self hall,
    squeezeSpaces_eq_self hnd, noiseFilter_eq_self hall, pipeFix_eq_self hall,
    zeroFix_eq_self hall]
  unfold pageFix numHeaderFix bulletFix blankLineFix sentenceFix
  rw [pageFixF_eq_self _ _ hall, nhAuxF_eq_self _ _ _ hall,
    bulletAuxF_eq_self _ _ _ hall, blankAuxF_eq_self _ _ hall,
    sentAuxF_eq_self _ _ hall, stripWS_eq_self hall hh hl]

/-- C2 counterexample: normalization is not idempotent.  On `"a00b"` the OCR
zero repair rewrites only the first zero (`"ao0b"`), and a second pass
rewrites the remaining zero (`"aoob"`). -/
theorem C2_idempotence_counterexample :
    preprocess_text (preprocess_text "a00b") ≠ preprocess_text "a00b" ∧
    preprocess_text "a00b" = "ao0b" ∧
    preprocess_text (preprocess_text "a00b") = "aoob" := by decide

/-- C2 (amended): `normalize(normalize(x)) = normalize(x)` fails in general
(see the counterexample), but holds for every input whose normalized form is
in the clean fragment — only lower-case letters and single separating spaces,
neither leading nor trailing — because each of the seven rewrite steps fixes
such strings. -/
theorem C2_idempotent_on_clean (s : String)
    (h : cleanText (preprocess_text s).data = true) :
    preprocess_text (preprocess_text s) = preprocess_text s := by
  by_cases hb : (preprocess_text s).data.all isSpaceChar = true
  · have hnil : (preprocess_text s).data = [] := by
      cases hd : (preprocess_text s).data with
      | nil => rfl
      | cons a tl =>
        exfalso
        have ha : isSpaceChar a = true :=
          List.all_eq_true.mp hb a (by rw [hd]; exact List.mem_cons_self a tl)
        have h' := h
        unfold cleanText at h'
        simp only [Bool.and_eq_true, bne_iff_ne, ne_eq, List.all_eq_true] at h'
        have hclean : cleanChar a = true :=
          h'.1.1.1 a (by rw [hd]; exact List.mem_cons_self a tl)
        have hsp := (clean_char_facts hclean).2.2.2.2.2.2.2.2.2
        rw [hsp] at ha
        have ha' : a = ' ' := beq_iff_eq.mp ha
        exact h'.1.2 (by rw [hd, ha']; rfl)
    have hempty : preprocess_text s = "" := String.ext (by rw [hnil])
    rw [hempty]
    rfl
  · conv_lhs => rw [preprocess_text]
    rw [if_neg hb, normalizeL_eq_self h]

/-- C2 witness: `"hello world"` normalizes to itself inside the clean
fragment, so a second normalization changes nothing. -/
theorem C2_idempotent_on_clean_witness :
    cleanText (preprocess_text "hello world").data = true ∧
    preprocess_text (preprocess_text "hello world") = preprocess_text "hello world" :=
  ⟨by decide, C2_idempotent_on_clean "hello world" (by decide)⟩

/-- `likeMatchF` ignores the exact fuel once it exceeds the sizes. -/
theorem likeMatchF_fuel {f1 f2 : Nat} : ∀ {p s : List Char},
    p.length + s.length < f1 → p.length + s.length < f2 →
    likeMatchF f1 p s = likeMatchF f2 p s := by
  induction f1 generalizing f2 with
  | zero => intro p s h1 _; omega
  | succ f1 ih =>
    intro p s h1 h2
    cases f2 with
    | zero => omega
    | succ f2 =>
      cases p with
      | nil => rfl
      | cons c p =>
        simp only [List.length_cons] at h1 h2
        by_cases hc : c = '%'
        · subst hc
          cases s with
          | nil =>
            show likeMatchF f1 p [] = likeMatchF f2 p []
            exact ih (by simpa using Nat.lt_of_succ_lt_succ h1)
              (by simpa using Nat.lt_of_succ_lt_succ h2)
          | cons d s' =>
            show (likeMatchF f1 p (d :: s') || likeMatchF f1 ('%' :: p) s')
              = (likeMatchF f2 p (d :: s') || likeMatchF f2 ('%' :: p) s')
            rw [@ih f2 p (d :: s') (by simp at h1 ⊢; omega) (by simp at h2 ⊢; omega),
              @ih f2 ('%' :: p) s' (by simp at h1 ⊢; omega) (by simp at h2 ⊢; omega)]
        · by_cases hu : c = '_'
          · subst hu
            cases s with
            | nil => rfl
            | cons d s' =>
              show likeMatchF f1 p s' = likeMatchF f2 p s'
              exact ih (by simp at h1 ⊢; omega) (by simp at h2 ⊢; omega)
          · cases s with
            | nil => simp only [likeMatchF, if_neg hc, if_neg hu]
            | cons d s' =>
              simp only [likeMatchF, if_neg hc, if_neg hu]
              rw [@ih f2 p s' (by simp at h1 ⊢; omega) (by simp at h2 ⊢; omega)]

/-- A wildcard-free pattern followed by `%` matches exactly the strings it
prefixes, case-insensitively. -/
theorem likeMatchF_append_pct {q : List Char}
    (hq : ∀ c ∈ q, c ≠ '%' ∧ c ≠ '_') : ∀ {s : List Char} {f : Nat},
    q.length + 1 + s.length < f →
    likeMatchF f (q ++ ['%']) s = leadsList (q.map lowerChar) (s.map lowerChar) := by
  induction q with
  | nil =>
    intro s
    induction s with
    | nil =>
      intro f hf
      obtain ⟨f, rfl⟩ : ∃ g, f = g + 2 := ⟨f - 2, by simp at hf; omega⟩
      rfl
    | cons d s' ihs =>
      intro f hf
      obtain ⟨f, rfl⟩ : ∃ g, f = g + 1 := ⟨f - 1, by omega⟩
      have hstep : likeMatchF (f + 1) ([] ++ ['%']) (d :: s')
          = (likeMatchF f [] (d :: s') || likeMatchF f ['%'] s') := by
        simp [likeMatchF]
      rw [hstep]
      have hs' : likeMatchF f ['%'] s' = true := by
        have := ihs (f := f) (by simp at hf ⊢; omega)
        simpa [leadsList] using this
      simp [hs', leadsList]
  | cons c q' ihq =>
    intro s f hf
    obtain ⟨f, rfl⟩ : ∃ g, f = g + 1 := ⟨f - 1, by omega⟩
    have hc := hq c (List.mem_cons_self c q')
    cases s with
    | nil =>
      show likeMatchF (f + 1) (c :: (q' ++ ['%'])) [] = _
      have hstep : likeMatchF (f + 1) (c :: (q' ++ ['%'])) [] = false := by
        simp [likeMatchF, if_neg hc.1, if_neg hc.2]
      rw [hstep]
      rfl
    | cons d s' =>
      show likeMatchF (f + 1) (c :: (q' ++ ['%'])) (d :: s') = _
      have hstep : likeMatchF (f + 1) (c :: (q' ++ ['%'])) (d :: s')
          = (lowerChar c == lowerChar d && likeMatchF f (q' ++ ['%']) s') := by
        simp [likeMatchF, if_neg hc.1, if_neg hc.2]
      rw [hstep,
        ihq (fun x hx => hq x (List.mem_cons_of_mem c hx)) (by simp at hf ⊢; omega)]
      rfl

/-- `%q%` with wildcard-free `q` matches exactly the strings containing `q`
as a case-insensitive substring. -/
theorem likeMatchF_pct_pct {q : List Char} (hq : ∀ c ∈ q, c ≠ '%' ∧ c ≠ '_') :
    ∀ {s : List Char} {f : Nat}, q.length + 2 + s.length < f →
    likeMatchF f ('%' :: (q ++ ['%'])) s
      = infixList (q.map lowerChar) (s.map lowerChar) := by
  intro s
  induction s with
  | nil =>
    intro f hf
    obtain ⟨f, rfl⟩ : ∃ g, f = g + 1 := ⟨f - 1, by omega⟩
    have hstep : likeMatchF (f + 1) ('%' :: (q ++ ['%'])) []
        = likeMatchF f (q ++ ['%']) [] := by
      simp [likeMatchF]
    rw [hstep, likeMatchF_append_pct hq (by omega)]
    rfl
  | cons d s' ihs =>
    intro f hf
    obtain ⟨f, rfl⟩ : ∃ g, f = g + 1 := ⟨f - 1, by omega⟩
    have hstep : likeMatchF (f + 1) ('%' :: (q ++ ['%'])) (d :: s')
        = (likeMatchF f (q ++ ['%']) (d :: s')
            || likeMatchF f ('%' :: (q ++ ['%'])) s') := by
      simp [likeMatchF]
    rw [hstep, likeMatchF_append_pct hq (by simp at hf ⊢; omega),
      ihs (by simp at hf ⊢; omega)]
    rfl

/-- For wildcard-free queries, SQL `LIKE '%q%'` and case-insensitive
substring containment agree. -/
theorem likeContains_eq_ciContains {q : String} (f : String)
    (hq : ∀ c ∈ q.data, c ≠ '%' ∧ c ≠ '_') :
    likeContains q f = ciContains q f := by
  unfold likeContains likeMatch ciContains
  exact likeMatchF_pct_pct hq (by simp)

/-- C9 (amended): for queries free of the SQL wildcards `%` and `_`, search
is exactly the user-scoped, newest-first, limited case-insensitive substring
match over document name, summary and excerpt; moreover every returned row
belongs to the requested user. -/
theorem C9_search_substring (st : List SummaryRow) (uid query : String)
    (limit : Nat) (hq : ∀ c ∈ query.data, c ≠ '%' ∧ c ≠ '_') :
    search_summaries st uid query limit = searchSpec st uid query limit ∧
    ∀ r ∈ search_summaries st uid query limit, r.user_id = uid := by
  constructor
  · unfold search_summaries searchSpec
    have heq : ∀ r ∈ st,
        (r.user_id == uid && searchRowMatch query r)
          = (r.user_id == uid && (ciContains query r.document_name ||
              ciContains query r.summary || ciContains query r.original_text)) := by
      intro r _
      unfold searchRowMatch
      rw [likeContains_eq_ciContains r.document_name hq,
        likeContains_eq_ciContains r.summary hq,
        likeContains_eq_ciContains r.original_text hq]
    rw [List.filter_congr heq]
  · intro r hr
    unfold search_summaries at hr
    have h1 := (sortDesc_perm _).mem_iff.mp (List.mem_of_mem_take hr)
    have h2 := (List.mem_filter.mp h1).2
    simp only [Bool.and_eq_true, beq_iff_eq] at h2
    exact h2.1

/-- C9 counterexample: the claim as stated fails for the query `"_"` — SQLite
`LIKE` treats `_` as a single-character wildcard, so the search returns
`rowA` even though `"_"` is not a substring of any of its three fields. -/
theorem C9_search_wildcard_counterexample :
    search_summaries [rowA] "u" "_" 20 = [rowA] ∧
    ciContains "_" rowA.document_name = false ∧
    ciContains "_" rowA.summary = false ∧
    ciContains "_" rowA.original_text = false ∧
    searchSpec [rowA] "u" "_" 20 = [] ∧
    search_summaries [rowA] "u" "_" 20 ≠ searchSpec [rowA] "u" "_" 20 := by
  decide

/-- C9 witness: a concrete wildcard-free query on a two-user store. -/
theorem C9_search_substring_witness :
    (search_summaries [rowA, rowB] "u" "AB" 20
      = searchSpec [rowA, rowB] "u" "AB" 20) ∧
    ∀ r ∈ search_summaries [rowA, rowB] "u" "AB" 20, r.user_id = "u" :=
  C9_search_substring [rowA, rowB] "u" "AB" 20 (by decide)

/-- C7: With distinct ids, deleting a record under the wrong user returns
`false` and leaves the store unchanged — the record is still found by id and
still listed for its owner — while deleting under the owner returns `true`
and removes it. -/
theorem C7_delete_owner_scoped (st : List SummaryRow) (r : SummaryRow)
    (sid : Nat) (A B : String)
    (hnd : (st.map SummaryRow.id).Nodup) (hmem : r ∈ st) (hid : r.id = sid)
    (hA : r.user_id = A) (hBA : B ≠ A) :
    (delete_summary st sid B).2 = false ∧
    (delete_summary st sid B).1 = st ∧
    get_summary_by_id (delete_summary st sid B).1 sid = some r ∧
    r ∈ get_user_summaries (delete_summary st sid B).1 A st.length 0 ∧
    (delete_summary st sid A).2 = true ∧
    r ∉ (delete_summary st sid A).1 := by
  have hkeep : ∀ x ∈ st, ¬(x.id = sid ∧ x.user_id = B) := by
    rintro x hx ⟨h1, h2⟩
    have hxr : x = r := List.inj_on_of_nodup_map hnd hx hmem (by rw [h1, hid])
    rw [hxr] at h2
    exact hBA (h2.symm.trans hA)
  have hfilB : st.filter (fun x => x.id == sid && x.user_id == B) = [] := by
    rw [List.filter_eq_nil_iff]
    intro a ha hcontra
    simp only [Bool.and_eq_true, beq_iff_eq] at hcontra
    exact hkeep a ha hcontra
  have hsame : (delete_summary st sid B).1 = st := by
    unfold delete_summary
    refine List.filter_eq_self.mpr ?_
    intro a ha
    have h := hkeep a ha
    simp only [Bool.not_eq_true', Bool.eq_false_iff, ne_eq, Bool.and_eq_true,
      beq_iff_eq]
    exact h
  refine ⟨?_, hsame, ?_, ?_, ?_, ?_⟩
  · show decide (0 < (st.filter (fun x => x.id == sid && x.user_id == B)).length)
      = false
    rw [hfilB]
    rfl
  · rw [hsame]
    exact find_id_unique hnd hmem hid
  · rw [hsame]
    unfold get_user_summaries
    rw [List.drop_zero]
    have hlen : (sortDesc (st.filter (fun x => x.user_id == A))).length ≤ st.length := by
      rw [(sortDesc_perm (st.filter (fun x => x.user_id == A))).length_eq]
      exact List.length_filter_le _ _
    rw [List.take_of_length_le hlen]
    exact (sortDesc_perm _).mem_iff.mpr
      (List.mem_filter.mpr ⟨hmem, by simp [hA]⟩)
  · show decide (0 < (st.filter (fun x => x.id == sid && x.user_id == A)).length)
      = true
    have hrIn : r ∈ st.filter (fun x => x.id == sid && x.user_id == A) :=
      List.mem_filter.mpr ⟨hmem, by simp [hid, hA]⟩
    simp only [decide_eq_true_eq]
    exact List.length_pos.mpr (List.ne_nil_of_mem hrIn)
  · intro hcon
    have h2 := (List.mem_filter.mp hcon).2
    simp [hid, hA] at h2

/-- C7 witness: in a two-row store, user `"v"` cannot delete user `"u"`'s
record, which stays fully retrievable; the owner's delete removes it. -/
theorem C7_delete_owner_scoped_witness :
    (delete_summary [rowA, rowB] 1 "v").2 = false ∧
    (delete_summary [rowA, rowB] 1 "v").1 = [rowA, rowB] ∧
    get_summary_by_id (delete_summary [rowA, rowB] 1 "v").1 1 = some rowA ∧
    rowA ∈ get_user_summaries (delete_summary [rowA, rowB] 1 "v").1 "u"
      ([rowA, rowB] : List SummaryRow).length 0 ∧
    (delete_summary [rowA, rowB] 1 "u").2 = true ∧
    rowA ∉ (delete_summary [rowA, rowB] 1 "u").1 :=
  C7_delete_owner_scoped [rowA, rowB] rowA 1 "u" "v" (by decide) (by decide)
    (by decide) (by decide) (by decide)

/-- `round(0, 2) = 0`. -/
theorem round2_zero : round2 0 = 0 := by
  unfold round2 roundHalfEven
  norm_num

/-- C8: Statistics for a user with no rows are all zero with style `"None"`
(and the function is total, so it never raises); the average is `0` when no
row has a non-null score and otherwise the rounded mean of those scores. -/
theorem C8_statistics_fields (st : List SummaryRow) (uid : String) :
    (userRows st uid = [] →
      get_summary_statistics st uid
        = { total_summaries := 0, total_documents := 0, average_quality := 0,
            favorite_style := "None", total_words_processed := 0 }) ∧
    (userScores st uid = [] →
      (get_summary_statistics st uid).average_quality = 0) ∧
    (userScores st uid ≠ [] →
      (get_summary_statistics st uid).average_quality
        = round2 ((userScores st uid).sum / ((userScores st uid).length : ℚ))) := by
  refine ⟨?_, ?_, ?_⟩
  · intro h
    have hs : userScores st uid = [] := by
      unfold userScores
      rw [h]
      rfl
    unfold get_summary_statistics
    rw [h, hs]
    simp [favoriteStyle, round2_zero]
  · intro h
    unfold get_summary_statistics
    rw [h]
    simp [round2_zero]
  · intro h
    unfold get_summary_statistics
    simp [h]

/-- C8 witness: user `"u"` has no rows in `[rowB]` (all-zero statistics),
only an unscored row in `[rowA]` (average `0`), and user `"v"`'s scored row
in `[rowB]` yields the rounded mean. -/
theorem C8_statistics_fields_witness :
    (get_summary_statistics [rowB] "u"
      = { total_summaries := 0, total_documents := 0, average_quality := 0,
          favorite_style := "None", total_words_processed := 0 }) ∧
    (get_summary_statistics [rowA] "u").average_quality = 0 ∧
    (get_summary_statistics [rowB] "v").average_quality
      = round2 ((userScores [rowB] "v").sum / ((userScores [rowB] "v").length : ℚ)) :=
  ⟨(C8_statistics_fields [rowB] "u").1 (by decide),
   (C8_statistics_fields [rowA] "u").2.1 (by decide),
   (C8_statistics_fields [rowB] "v").2.2 (by decide)⟩

/-- C5: The quality evaluator never raises: it is a total function of its
inputs (including the simulated internal-failure parameter), and on an
internal failure the report carries quality score `0`, rating `"Error"`, and
an error note wrapping the failure message, exactly as the `except` branch of
`evaluate_summary_quality` builds it. -/
theorem C5_eval_error_degradation (e o s : String) :
    (evaluate_summary_quality (some e) o s).quality_score = 0 ∧
    (evaluate_summary_quality (some e) o s).overall_rating = "Error" ∧
    (evaluate_summary_quality (some e) o s).error
      = some ("Error evaluating summary: " ++ e) :=
  ⟨rfl, rfl, rfl⟩

/-- C4: For every (original, summary) pair the quality score lies in
`[0, 100]` (it is a `Nat`, bounded by `100`), and the rating is the inclusive
threshold chain of the spec — in particular `ratingOf 80 = "Excellent"`. -/
theorem C4_score_bounds_rating (o s : String) :
    (evaluate_summary_quality none o s).quality_score ≤ 100 ∧
    (evaluate_summary_quality none o s).overall_rating
      = ratingOf (evaluate_summary_quality none o s).quality_score ∧
    ratingOf 80 = "Excellent" := by
  have hscore : (evaluate_summary_quality none o s).quality_score
      = compressionPts o s + indicatorPts s + structurePts s + lengthPts s +
        sentencePts s := rfl
  refine ⟨?_, rfl, by decide⟩
  rw [hscore]
  have h1 : compressionPts o s ≤ 25 := by unfold compressionPts; split <;> omega
  have h2 : indicatorPts s ≤ 20 := by unfold indicatorPts; split <;> omega
  have h3 : structurePts s ≤ 15 := by unfold structurePts; split <;> omega
  have h4 : lengthPts s ≤ 20 := by unfold lengthPts; split <;> omega
  have h5 : sentencePts s ≤ 20 := by unfold sentencePts; split <;> omega
  omega

/-- C3: The score includes the `+25` compression bonus iff the ratio
`r = summary words / original words` (`0` when the original has no words;
`mkRat` is exact division here) satisfies `0.05 ≤ r ≤ 0.4`; below the band the
bonus is `0` and the "too brief" note appears, above it the bonus is `0` and
the "too verbose" note appears. -/
theorem C3_compression_bonus (o s : String) :
    ((evaluate_summary_quality none o s).quality_score
      = compressionPts o s + indicatorPts s + structurePts s + lengthPts s +
        sentencePts s)
    ∧ (compressionPts o s = 25 ↔
        (mkRat 1 20 ≤ compressionRatio o s ∧ compressionRatio o s ≤ mkRat 2 5))
    ∧ (wordCount o = 0 → compressionRatio o s = 0)
    ∧ (compressionRatio o s < mkRat 1 20 → compressionPts o s = 0 ∧
        "⚠️ Summary might be too brief" ∈ (evaluate_summary_quality none o s).feedback)
    ∧ (mkRat 2 5 < compressionRatio o s → compressionPts o s = 0 ∧
        "⚠️ Summary might be too verbose" ∈ (evaluate_summary_quality none o s).feedback) := by
  have hmem : compressionNote o s ∈ (evaluate_summary_quality none o s).feedback :=
    List.mem_append_left _ (List.mem_append_left _ (List.mem_append_left _
      (List.mem_append_left _ (List.mem_singleton_self _))))
  refine ⟨rfl, ?_, ?_, ?_, ?_⟩
  · unfold compressionPts
    split
    · rename_i h; exact iff_of_true rfl h
    · rename_i h; exact iff_of_false (by omega) h
  · intro h; unfold compressionRatio; simp [h]
  · intro h
    have hok : ¬ compressionOk o s := fun hc => absurd h (not_lt.mpr hc.1)
    refine ⟨by simp [compressionPts, hok], ?_⟩
    simpa [compressionNote, hok, h] using hmem
  · intro h
    have hok : ¬ compressionOk o s := fun hc => absurd h (not_lt.mpr hc.2)
    have hnb : ¬ compressionRatio o s < mkRat 1 20 := by
      have : (mkRat 1 20 : ℚ) ≤ mkRat 2 5 := by decide
      exact not_lt.mpr (le_trans this (le_of_lt h))
    refine ⟨by simp [compressionPts, hok], ?_⟩
    simpa [compressionNote, hok, hnb] using hmem

/-- C3 witness: a 21-word original with a 1-word summary has ratio
`1/21 < 0.05`, gets no compression points, and receives the brief note. -/
theorem C3_compression_bonus_witness :
    compressionPts "a b c d e f g h i j k l m n o p q r s t u" "x" = 0 ∧
    "⚠️ Summary might be too brief" ∈
      (evaluate_summary_quality none "a b c d e f g h i j k l m n o p q r s t u"
        "x").feedback :=
  (C3_compression_bonus "a b c d e f g h i j k l m n o p q r s t u" "x").2.2.2.1
    (by decide)

/-- C10: There is a non-empty, non-whitespace input (`"@"`, a character the
noise filter deletes; also a bare `"Page 7"` token) whose normalization is
empty, and on it `summarize_text` reports the preprocessing-empty failure
without invoking the external capability. -/
theorem C10_nonblank_normalizes_empty :
    ("@" : String) ≠ "" ∧ ("@" : String).data.all isSpaceChar = false ∧
    preprocess_text "@" = "" ∧ preprocess_text "Page 7" = "" ∧
    (summarize_text "@" (GenOutcome.ok "result")).1
      = "Error: Text preprocessing resulted in empty content" ∧
    (summarize_text "@" (GenOutcome.ok "result")).2 = false := by decide

/-- C6: For blank input, or input normalizing to the empty string,
`summarize_text` returns one of the two empty-input error messages and never
invokes the external generative capability. -/
theorem C6_empty_input_no_external_call (text : String) (g : GenOutcome)
    (h : text.data.all isSpaceChar = true ∨ preprocess_text text = "") :
    (summarize_text text g).2 = false ∧
    ((summarize_text text g).1 = "Error: No text provided for summarization" ∨
      (summarize_text text g).1 = "Error: Text preprocessing resulted in empty content") := by
  unfold summarize_text
  by_cases hb : text.data.all isSpaceChar = true
  · simp [hb]
  · rcases h with h | h
    · exact absurd h hb
    · simp [hb, h]

/-- C6 witness: the input `"@"` is not blank but normalizes to nothing, so
the generator fails fast without an external call. -/
theorem C6_empty_input_no_external_call_witness :
    (summarize_text "@" (GenOutcome.ok "result")).2 = false ∧
    ((summarize_text "@" (GenOutcome.ok "result")).1
        = "Error: No text provided for summarization" ∨
      (summarize_text "@" (GenOutcome.ok "result")).1
        = "Error: Text preprocessing resulted in empty content") :=
  C6_empty_input_no_external_call "@" (GenOutcome.ok "result") (Or.inr (by decide))

/-- C1: When generation succeeds (the generated string does not start with
`"Error"`) but the database save raises, the orchestrator still reports
success, carries the generated summary, a null storage id, a warning naming
the persistence failure, and the rounded processing time. -/
theorem C1_db_failure_warning (text : String) (g : GenOutcome)
    (e fileResult : String) (elapsed : ℚ)
    (hblank : text.data.all isSpaceChar = false)
    (hgen : strStartsWith "Error" (summarize_text text g).1 = false) :
    (summarize_text_with_db text g (Except.error e) fileResult elapsed).success = true ∧
    (summarize_text_with_db text g (Except.error e) fileResult elapsed).summary
      = some (summarize_text text g).1 ∧
    (summarize_text_with_db text g (Except.error e) fileResult elapsed).summary_id = none ∧
    (summarize_text_with_db text g (Except.error e) fileResult elapsed).warning
      = some ("Summary generated but database save failed: " ++ e) ∧
    (summarize_text_with_db text g (Except.error e) fileResult elapsed).processing_time
      = some (round2 elapsed) := by
  unfold summarize_text_with_db
  simp [hblank, hgen]

/-- C1 witness: a concrete non-blank text, a successful generation, and a
raising save produce the warning outcome with the timing included. -/
theorem C1_db_failure_warning_witness :
    (summarize_text_with_db "An example document with several words."
        (GenOutcome.ok "A note") (Except.error "disk full") "p" 1).success = true ∧
    (summarize_text_with_db "An example document with several words."
        (GenOutcome.ok "A note") (Except.error "disk full") "p" 1).summary
      = some (summarize_text "An example document with several words."
          (GenOutcome.ok "A note")).1 ∧
    (summarize_text_with_db "An example document with several words."
        (GenOutcome.ok "A note") (Except.error "disk full") "p" 1).summary_id = none ∧
    (summarize_text_with_db "An example document with several words."
        (GenOutcome.ok "A note") (Except.error "disk full") "p" 1).warning
      = some ("Summary generated but database save failed: " ++ "disk full") ∧
    (summarize_text_with_db "An example document with several words."
        (GenOutcome.ok "A note") (Except.error "disk full") "p" 1).processing_time
      = some (round2 1) :=
  C1_db_failure_warning "An example document with several words."
    (GenOutcome.ok "A note") "disk full" "p" 1 (by decide) (by decide)

end DocSum
